import Mathlib

/-!
# A verification development for the `filephile` command-dispatch and navigation engine

This file gives a shallow embedding of the core data model and operations of the
`filephile` terminal file browser (the live generation of the sources:
`main.rs`, `actions.rs`, `helper_types.rs`, `directory_tree.rs`, together with the
viewport logic of `modes/normal_mode.rs` / `modes.rs`), and proves properties of the
key-sequence digester, the dispatch loop, the cursor model, the viewport scroller and
the search-mode ranking pipeline.

Modelling conventions:
* Rust `String` / `str` become Lean `String`; `str::starts_with` is modelled as a
  character-list prefix test (`starts_with` below), which agrees with Rust's byte-wise
  prefix test on UTF-8 strings.
* `usize` becomes `Nat`.  Where an underflowing subtraction would make the Rust
  program panic (overflow checks), the subtraction is modelled by the checked
  `usizeSub`, and the surrounding operation returns an `Option` (`none` = panic).
  `usize.parse` is modelled unbounded (its overflow failure is not exercised here).
* `FileTreeNode::is_dir` queries the filesystem in Rust; here it is the boolean
  attribute recorded on the node at listing time.  `PartialEq for FileTreeNode`
  compares canonical paths only, and is modelled by explicit path comparison.
* The fuzzy score (`SkimMatcherV2`, an external crate wrapped by
  `FileTreeNode::compute_score`) is an abstract parameter `score` of the search
  pipeline.
* The current `modes.rs` of the live generation (defining `Mode`, `is_text_mode`,
  `get_action_map`) is not among the sources; those three definitions are modelled
  from the spec and are marked as such.  The actions `left`, `right` and
  `apply_mark_action` invoke filesystem/terminal collaborators and are outside the
  model; no property below depends on them.  `AppState.current_dir` is likewise
  omitted (only those unmodelled actions touch it).
-/

/-- `FileTreeNode` (directory_tree.rs): an entry materialised for display.
`path` is the lexically normalised path (`path_buf`), `is_dir` the directory flag
observed at listing time, `simple_name` the display name. -/
structure FileTreeNode where
  path : String
  is_dir : Bool
  simple_name : String
deriving DecidableEq, Repr

/-- `Iterator::position` (used by `get_file_cursor_index` and
`toggle_delete_mark`): index of the first element satisfying `p`. -/
def position {α : Type} (p : α → Bool) : List α → Option Nat
  | [] => none
  | x :: xs => if p x then some 0 else (position p xs).map (· + 1)

/-- `get_file_cursor_index` (directory_tree.rs): the effective cursor index,
recomputed from the persisted selected path by linear search. -/
def get_file_cursor_index (selected_file : Option FileTreeNode)
    (items : List FileTreeNode) : Option Nat :=
  selected_file.bind fun sf => position (fun el => sf.path == el.path) items

/-- Rust `Ord::cmp` on a linearly ordered type (used for `PathBuf` and `i64`
comparisons). -/
def rust_cmp {α : Type} [LinearOrder α] (x y : α) : Ordering :=
  if x < y then Ordering.lt else if x = y then Ordering.eq else Ordering.gt

/-- `cmp_by_dir_and_path` (modes.rs): directories sort before files, ties broken by
path comparison. -/
def cmp_by_dir_and_path (a b : FileTreeNode) : Ordering :=
  if a.is_dir != b.is_dir then
    if a.is_dir then Ordering.lt else Ordering.gt
  else rust_cmp a.path b.path

/-- The boolean `≤` induced by `cmp_by_dir_and_path` (what `sort_by` sorts
ascending by). -/
def dir_path_le (a b : FileTreeNode) : Bool :=
  (cmp_by_dir_and_path a b).isLE

/-- The search-mode comparator of `run_loop` (main.rs): descending score first,
ties broken by the default ordering. -/
def search_cmp (a b : Int × FileTreeNode) : Ordering :=
  if a.1 ≠ b.1 then rust_cmp b.1 a.1 else cmp_by_dir_and_path a.2 b.2

/-- The boolean `≤` induced by `search_cmp`. -/
def search_le (a b : Int × FileTreeNode) : Bool :=
  (search_cmp a b).isLE

/-- The search-mode entry pipeline of `run_loop` (main.rs, `TextInputMode(Search)`
arm): with an empty query the full set is default-sorted; otherwise entries are
scored, entries with non-positive score dropped, and the rest sorted by descending
score with default-order tie-break.  `score` abstracts
`FileTreeNode::compute_score` (0 on no match, the matcher's score otherwise). -/
def search_mode_dir_items (score : String → String → Int) (search_string : String)
    (dir_items : List FileTreeNode) : List FileTreeNode :=
  if search_string.data.isEmpty then
    dir_items.mergeSort dir_path_le
  else
    ((((dir_items.map fun el => (score el.simple_name search_string, el)).filter
        fun el => 0 < el.1).mergeSort search_le).map fun el => el.2)

/-- Checked `usize` subtraction: `none` where Rust's overflow check would fire. -/
def usizeSub (a b : Nat) : Option Nat :=
  if b ≤ a then some (a - b) else none

/-- Rust `usize::clamp` (the `lo ≤ hi` precondition always holds at its one call
site, where `lo = 0`). -/
def usizeClamp (x lo hi : Nat) : Nat :=
  min (max x lo) hi

/-- The scroll offset (`num_to_skip`) of `NormalModeController::get_left_ui`
(modes/normal_mode.rs, modes.rs): `N` entries, viewport height `H`, configured
slack `S` (`max_distance_from_cursor_to_bottom`), cursor index `c`. -/
def num_to_skip (N H S c : Nat) : Nat :=
  if N ≤ H then 0
  else if S + c < H then 0
  else if N > c + S then c + S - H
  else N - H

/-- `KeyCode` (crossterm): the key kinds `InputReader::digest` distinguishes;
`Other` stands for every remaining variant (ignored by `digest`). -/
inductive KeyCode where
  | Char (c : Char)
  | Esc
  | Backspace
  | Enter
  | Other
deriving DecidableEq

/-- `InputReaderDigestResult` (helper_types.rs). -/
inductive InputReaderDigestResult where
  | DigestSuccessful
  | DigestError (msg : String)
deriving DecidableEq

/-- `InputReader` (helper_types.rs): the modifier-digit buffer and the verb-token
buffer. -/
structure InputReader where
  modifier_key_sequence : String
  verb_key_sequence : List String
deriving DecidableEq

/-- `InputReader::clear` — the cleared reader. -/
def clearedInputReader : InputReader :=
  { modifier_key_sequence := "", verb_key_sequence := [] }

/-- `InputReader::get_human_friendly_verb_key_sequence` (helper_types.rs): the
space-joined canonical lookup key. -/
def InputReader.get_human_friendly_verb_key_sequence (r : InputReader) : String :=
  r.verb_key_sequence.foldl
    (fun acc el => if acc.isEmpty then acc ++ el else acc ++ " " ++ el) ""

/-- `InputReader::digest` (helper_types.rs): returns the updated reader and the
digest result. -/
def InputReader.digest (r : InputReader) (key : KeyCode)
    (force_pushing_as_verb : Bool) : InputReader × InputReaderDigestResult :=
  match key with
  | KeyCode.Char c =>
    if !force_pushing_as_verb && c.isDigit then
      let r' := { r with modifier_key_sequence := r.modifier_key_sequence.push c }
      if !r'.verb_key_sequence.isEmpty then
        (clearedInputReader,
          InputReaderDigestResult.DigestError "Can not have a verb modifier after an verb")
      else
        (r', InputReaderDigestResult.DigestSuccessful)
    else
      ({ r with verb_key_sequence := r.verb_key_sequence ++ [c.toString] },
        InputReaderDigestResult.DigestSuccessful)
  | KeyCode.Esc =>
    ({ r with verb_key_sequence := r.verb_key_sequence ++ ["ESC"] },
      InputReaderDigestResult.DigestSuccessful)
  | KeyCode.Backspace =>
    ({ r with verb_key_sequence := r.verb_key_sequence ++ ["BACKSPACE"] },
      InputReaderDigestResult.DigestSuccessful)
  | KeyCode.Enter =>
    ({ r with verb_key_sequence := r.verb_key_sequence ++ ["ENTER"] },
      InputReaderDigestResult.DigestSuccessful)
  | KeyCode.Other =>
    (r, InputReaderDigestResult.DigestSuccessful)

/-- Rust `str::starts_with`: `starts_with s pre` holds when `pre` is a prefix of
`s` (character-wise, which agrees with Rust's byte-wise test on UTF-8). -/
def starts_with (s pre : String) : Bool :=
  pre.data.isPrefixOf s.data

/-- `InputReader::check_incomplete_commands` (helper_types.rs): does any binding
key in any of the tables start with the current sequence? -/
def InputReader.check_incomplete_commands (_self : InputReader)
    (current_sequence : String) (possiblities : List (List (String × String))) : Bool :=
  possiblities.any fun map => map.any fun kv => starts_with kv.1 current_sequence

/-- `"...".parse::<usize>().ok()` on the modifier buffer (main.rs): fails exactly
on the empty buffer (the buffer only ever holds decimal digits; the `usize`
overflow failure is not modelled). -/
def parse_usize (s : String) : Option Nat :=
  if s.data.isEmpty then none
  else some (s.data.foldl (fun acc c => 10 * acc + (c.toNat - 48)) 0)

/-- `SimpleMode` (used by actions.rs and main.rs). -/
inductive SimpleMode where
  | Normal
  | Quitting
deriving DecidableEq

/-- `TextInput` (used by actions.rs and main.rs). -/
inductive TextInput where
  | Search
  | RunCommand
deriving DecidableEq

/-- `OverlayMode` with its captured payloads (used by actions.rs and main.rs). -/
inductive OverlayMode where
  | Rename (old_file : FileTreeNode)
  | DeleteInstantlyConfirm (file : FileTreeNode)
  | CreateFile
  | CreateDirectory
deriving DecidableEq

/-- Modelled from the spec: the `Mode` enum of the live generation's `modes.rs`
(missing from the sources; its variants are fixed by every construction site in
`actions.rs` and every match in `main.rs`): `Normal`, `TextInput(kind)`,
`Overlay(background, payload)`, `Quitting`. -/
inductive Mode where
  | SimpleMode (m : SimpleMode)
  | TextInputMode (text_input_type : TextInput)
  | OverlayMode (background_mode : SimpleMode) (overlay_mode : OverlayMode)
deriving DecidableEq

/-- Modelled from the spec: `Mode::is_text_mode` (missing `modes.rs`): true
exactly for the modes that treat typed text literally — `TextInput` (Search,
RunCommand) and all `Overlay` payloads. -/
def Mode.is_text_mode : Mode → Bool
  | Mode.TextInputMode _ => true
  | Mode.OverlayMode _ _ => true
  | Mode.SimpleMode _ => false

/-- `MarkType` (helper_types.rs). -/
inductive MarkType where
  | Delete
deriving DecidableEq

/-- `ErrorPopup` (helper_types.rs). -/
structure ErrorPopup where
  title : String
  desc : String
deriving DecidableEq

/-- `AppState` (helper_types.rs).  `current_dir` is omitted: only the unmodelled
`left`/`right` actions read or write it. -/
structure AppState where
  mode : Mode
  input_reader : InputReader
  error_popup : Option ErrorPopup
  error_message_line : Option String
  selected_file : Option FileTreeNode
  entered_text : String
  marked_files : List FileTreeNode
  mark_type : MarkType
deriving DecidableEq

/-- `AppState::reset_state` (helper_types.rs): clears prompts, error messages and
entered text, and returns to Normal mode. -/
def AppState.reset_state (s : AppState) : AppState :=
  { s with
    error_message_line := none
    error_popup := none
    entered_text := ""
    mode := Mode.SimpleMode SimpleMode.Normal }

/-- `AppState::copy_input_manager_verbs_to_entered_text` (helper_types.rs):
appends the concatenated verb tokens to the entered text. -/
def AppState.copy_input_manager_verbs_to_entered_text (s : AppState) : AppState :=
  { s with entered_text := s.entered_text ++ String.join s.input_reader.verb_key_sequence }

/-- `AppState::set_file_cursor_highlight_index` (helper_types.rs): recompute the
effective index from the persisted selection, apply the index transform, wrap by
`rem_euclid`, and persist the path at the new index.  The index transform returns
`none` exactly where the Rust closure would panic (integer underflow); on an empty
list the transform is never invoked. -/
def AppState.set_file_cursor_highlight_index (s : AppState)
    (dir_items : List FileTreeNode) (get_new_index : Nat → Nat → Option Nat) :
    Option AppState :=
  let items_num := dir_items.length
  if items_num = 0 then
    some { s with selected_file := dir_items.get? 0 }
  else
    (get_new_index ((get_file_cursor_index s.selected_file dir_items).getD 0)
        items_num).map
      fun j => { s with selected_file := dir_items.get? (j % items_num) }

/-- `ActionResult` (actions.rs). -/
inductive ActionResult where
  | Valid
  | Invalid (msg : String)
deriving DecidableEq

/-- An action closure: takes the parsed modifier and the current entry list,
transforms the state.  `none` models a panic inside the closure. -/
def ActionFn : Type :=
  Option Nat → List FileTreeNode → AppState → Option (AppState × ActionResult)

/-- GLOBAL_ACTION_MAP "quit" (actions.rs). -/
def quitAction : ActionFn := fun _ _ s =>
  some ({ s with mode := Mode.SimpleMode SimpleMode.Quitting }, ActionResult.Valid)

/-- GLOBAL_ACTION_MAP "normal_mode" (actions.rs). -/
def normalModeAction : ActionFn := fun _ _ s =>
  some (s.reset_state, ActionResult.Valid)

/-- GLOBAL_ACTION_MAP "search_mode" (actions.rs). -/
def searchModeAction : ActionFn := fun _ _ s =>
  some ({ s.reset_state with mode := Mode.TextInputMode TextInput.Search },
    ActionResult.Valid)

/-- GLOBAL_ACTION_MAP "run_command_mode" (actions.rs). -/
def runCommandModeAction : ActionFn := fun _ _ s =>
  some ({ s.reset_state with mode := Mode.TextInputMode TextInput.RunCommand },
    ActionResult.Valid)

/-- NORMAL_MODE_ACTION_MAP "noop" (actions.rs). -/
def noopAction : ActionFn := fun _ _ s =>
  some (s, ActionResult.Valid)

/-- NORMAL_MODE_ACTION_MAP "down" (actions.rs): advance by the modifier
(default 1). -/
def downAction : ActionFn := fun modifier dir_items s =>
  (s.set_file_cursor_highlight_index dir_items fun i _ =>
      some (i + modifier.getD 1)).map
    fun s' => (s', ActionResult.Valid)

/-- NORMAL_MODE_ACTION_MAP "up" (actions.rs): retreat by the modifier reduced
modulo the list length; the `n + i` guard prevents underflow. -/
def upAction : ActionFn := fun modifier dir_items s =>
  (s.set_file_cursor_highlight_index dir_items fun i dir_items_num =>
      usizeSub (dir_items_num + i) ((modifier.getD 1) % dir_items_num)).map
    fun s' => (s', ActionResult.Valid)

/-- NORMAL_MODE_ACTION_MAP "go_to_or_go_to_bottom" (actions.rs): with a modifier
`m`, target `(m - 1).clamp(0, n - 1)` (the `m - 1` is an unchecked `usize`
subtraction); without, target `n - 1`. -/
def goToOrBottomAction : ActionFn := fun modifier dir_items s =>
  match modifier with
  | some m =>
    (s.set_file_cursor_highlight_index dir_items fun _ num_items =>
        (usizeSub m 1).map fun t => usizeClamp t 0 (num_items - 1)).map
      fun s' => (s', ActionResult.Valid)
  | none =>
    (s.set_file_cursor_highlight_index dir_items fun _ num_items =>
        some (num_items - 1)).map
      fun s' => (s', ActionResult.Valid)

/-- NORMAL_MODE_ACTION_MAP "go_to_top" (actions.rs). -/
def goToTopAction : ActionFn := fun _ dir_items s =>
  (s.set_file_cursor_highlight_index dir_items fun _ _ => some 0).map
    fun s' => (s', ActionResult.Valid)

/-- NORMAL_MODE_ACTION_MAP "rename" (actions.rs): reset, then enter the Rename
overlay capturing the selected file, or fail if nothing is selected. -/
def renameAction : ActionFn := fun _ _ s =>
  let s' := s.reset_state
  match s.selected_file with
  | some old_file =>
    some ({ s' with
        mode := Mode.OverlayMode SimpleMode.Normal (OverlayMode.Rename old_file) },
      ActionResult.Valid)
  | none => some (s', ActionResult.Invalid "No file selected")

/-- NORMAL_MODE_ACTION_MAP "delete_instantly" (actions.rs). -/
def deleteInstantlyAction : ActionFn := fun _ _ s =>
  let s' := s.reset_state
  match s.selected_file with
  | some file =>
    some ({ s' with
        mode := Mode.OverlayMode SimpleMode.Normal
          (OverlayMode.DeleteInstantlyConfirm file) },
      ActionResult.Valid)
  | none => some (s', ActionResult.Invalid "No file selected")

/-- NORMAL_MODE_ACTION_MAP "remove_marks" (actions.rs). -/
def removeMarksAction : ActionFn := fun _ _ s =>
  some ({ s with marked_files := [] }, ActionResult.Valid)

/-- NORMAL_MODE_ACTION_MAP "toggle_delete_mark" (actions.rs); `==` on
`FileTreeNode` is the path comparison of its `PartialEq`. -/
def toggleDeleteMarkAction : ActionFn := fun _ _ s =>
  match s.selected_file with
  | some selected_file =>
    match position (fun f => f.path == selected_file.path) s.marked_files with
    | some index =>
      some ({ s with marked_files := s.marked_files.eraseIdx index },
        ActionResult.Valid)
    | none =>
      some ({ s with marked_files := s.marked_files ++ [selected_file] },
        ActionResult.Valid)
  | none => some (s, ActionResult.Invalid "No file selected")

/-- NORMAL_MODE_ACTION_MAP "create_file" (actions.rs). -/
def createFileAction : ActionFn := fun _ _ s =>
  some ({ s.reset_state with
      mode := Mode.OverlayMode SimpleMode.Normal OverlayMode.CreateFile },
    ActionResult.Valid)

/-- NORMAL_MODE_ACTION_MAP "create_directory" (actions.rs). -/
def createDirectoryAction : ActionFn := fun _ _ s =>
  some ({ s.reset_state with
      mode := Mode.OverlayMode SimpleMode.Normal OverlayMode.CreateDirectory },
    ActionResult.Valid)

/-- TEXT_MODE_ACTION_MAP "noop" (actions.rs): copy the typed verbs into the
entered text and clear the reader. -/
def textNoopAction : ActionFn := fun _ _ s =>
  some ({ s.copy_input_manager_verbs_to_entered_text with
      input_reader := clearedInputReader },
    ActionResult.Valid)

/-- TEXT_MODE_ACTION_MAP "delete_last_char" (actions.rs). -/
def deleteLastCharAction : ActionFn := fun _ _ s =>
  some ({ s with entered_text := s.entered_text.dropRight 1 }, ActionResult.Valid)

/-- `GLOBAL_ACTION_MAP` (actions.rs) as a name -> closure map. -/
def findActionGlobal (name : String) : Option ActionFn :=
  if name = "quit" then some quitAction
  else if name = "normal_mode" then some normalModeAction
  else if name = "search_mode" then some searchModeAction
  else if name = "run_command_mode" then some runCommandModeAction
  else none

/-- `NORMAL_MODE_ACTION_MAP` (actions.rs).  The `left`, `right` and
`apply_mark_action` entries invoke filesystem/terminal collaborators and are
outside this model; no property below resolves them. -/
def findActionNormal (name : String) : Option ActionFn :=
  if name = "noop" then some noopAction
  else if name = "down" then some downAction
  else if name = "up" then some upAction
  else if name = "go_to_or_go_to_bottom" then some goToOrBottomAction
  else if name = "go_to_top" then some goToTopAction
  else if name = "rename" then some renameAction
  else if name = "delete_instantly" then some deleteInstantlyAction
  else if name = "remove_marks" then some removeMarksAction
  else if name = "toggle_delete_mark" then some toggleDeleteMarkAction
  else if name = "create_file" then some createFileAction
  else if name = "create_directory" then some createDirectoryAction
  else none

/-- `TEXT_MODE_ACTION_MAP` (actions.rs).  The per-overlay dynamic "commit"
closure (`ActionMapper::new_dynamic`) is bound at mode entry in the missing
`modes.rs` and is not modelled; no property below dispatches it. -/
def findActionText (name : String) : Option ActionFn :=
  if name = "noop" then some textNoopAction
  else if name = "delete_last_char" then some deleteLastCharAction
  else none

/-- Modelled from the spec: `Mode::get_action_map` (missing `modes.rs`): the
static per-mode action tier — the Normal table for simple modes, the text-edit
table for `TextInput`/`Overlay` modes. -/
def Mode.get_action_map : Mode → (String → Option ActionFn)
  | Mode.SimpleMode _ => findActionNormal
  | Mode.TextInputMode _ => findActionText
  | Mode.OverlayMode _ _ => findActionText

/-- `InputReader::get_closure_by_key_bindings` (helper_types.rs), additionally
reporting the resolved action name (used below to state which action fired). -/
def get_closure_by_key_bindings (r : InputReader)
    (key_to_action_mapping : List (String × String))
    (action_to_closure_mapping : String → Option ActionFn) :
    Option (String × ActionFn) :=
  match key_to_action_mapping.lookup r.get_human_friendly_verb_key_sequence with
  | some action_name =>
    (action_to_closure_mapping action_name).map fun f => (action_name, f)
  | none => none

/-- The closure resolution of `inputs` (main.rs): mode table first, then the
global table. -/
def resolve_action (mode_actions : String → Option ActionFn)
    (mode_key_binding global_key_bindings : List (String × String))
    (r : InputReader) : Option (String × ActionFn) :=
  (get_closure_by_key_bindings r mode_key_binding mode_actions).orElse
    fun _ => get_closure_by_key_bindings r global_key_bindings findActionGlobal

/-- The binding table active for a mode (`inputs`, main.rs): Normal mode uses the
normal-mode table, `TextInput`/`Overlay` modes the text-input table. -/
def modeTable (normal_mode_key_bindings text_input_mode_key_bindings :
    List (String × String)) : Mode → List (String × String)
  | Mode.SimpleMode SimpleMode.Normal => normal_mode_key_bindings
  | _ => text_input_mode_key_bindings

/-- `inputs` (main.rs): close popups/status, digest the key (forcing verbs in
text modes), surface digest errors, resolve and run an action (clearing buffers
unconditionally), otherwise retain buffers on a viable prefix or flush/emit and
clear on a dead end.  Returns `none` where the source would panic
(`unreachable!()` in Quitting mode, or a panicking action closure); otherwise the
new state and the name of the dispatched action, if any. -/
def inputs (normal_mode_key_bindings global_key_bindings
    text_input_mode_key_bindings : List (String × String)) (k : KeyCode)
    (dir_items : List FileTreeNode) (s0 : AppState) :
    Option (AppState × Option String) :=
  let s1 : AppState := { s0 with error_popup := none, error_message_line := none }
  let dg := s1.input_reader.digest k s1.mode.is_text_mode
  let s2 : AppState := { s1 with input_reader := dg.1 }
  match dg.2 with
  | InputReaderDigestResult.DigestError msg =>
    some ({ s2 with error_message_line := some msg }, none)
  | InputReaderDigestResult.DigestSuccessful =>
    if s2.mode = Mode.SimpleMode SimpleMode.Quitting then
      none
    else
      let modifier := parse_usize s2.input_reader.modifier_key_sequence
      let mode_key_binding :=
        modeTable normal_mode_key_bindings text_input_mode_key_bindings s2.mode
      match resolve_action s2.mode.get_action_map mode_key_binding
          global_key_bindings s2.input_reader with
      | some nf =>
        (nf.2 modifier dir_items s2).map fun sr =>
          let s3 : AppState :=
            match sr.2 with
            | ActionResult.Invalid msg => { sr.1 with error_message_line := some msg }
            | ActionResult.Valid => sr.1
          ({ s3 with input_reader := clearedInputReader }, some nf.1)
      | none =>
        let current_sequence := s2.input_reader.get_human_friendly_verb_key_sequence
        if s2.input_reader.check_incomplete_commands current_sequence
            [mode_key_binding, global_key_bindings] then
          some (s2, none)
        else if s2.mode.is_text_mode then
          some ({ s2.copy_input_manager_verbs_to_entered_text with
              input_reader := clearedInputReader }, none)
        else
          some ({ s2 with
              error_message_line :=
                some ("Could not recognise that sequence: " ++ current_sequence)
              input_reader := clearedInputReader }, none)

/-! ## Shared concrete fixtures -/

/-- A fresh `AppState` in Normal mode (as built by `AppState::new`). -/
def baseState : AppState :=
  { mode := Mode.SimpleMode SimpleMode.Normal
    input_reader := clearedInputReader
    error_popup := none
    error_message_line := none
    selected_file := none
    entered_text := ""
    marked_files := []
    mark_type := MarkType.Delete }

/-- A concrete file entry. -/
def nodeA : FileTreeNode := { path := "/d/a", is_dir := false, simple_name := "a" }

/-- A concrete file entry. -/
def nodeB : FileTreeNode := { path := "/d/b", is_dir := false, simple_name := "b" }

/-- A concrete directory entry. -/
def nodeD : FileTreeNode := { path := "/d/c", is_dir := true, simple_name := "c/" }

/-! ## C1: viewport scroll offset -/

/-- C1 (amended): for `N > 0`, `H > 0`, any slack `S` with `1 ≤ S ≤ H` and any
cursor index `c ∈ [0, N)`, the scroll offset satisfies
`0 ≤ off ≤ max 0 (N - H)` and `off ≤ c < off + H`; moreover for every `S ≥ 0`,
when `N > H` and `c + S ≥ H`, the offset equals `min (c + S - H) (N - H)`.
(The original range `S ≥ 0` for the first part fails; see the counterexample.) -/
theorem viewport_scroll_bounds (N H S c : Nat) (hN : 0 < N) (hH : 0 < H)
    (hc : c < N) :
    (1 ≤ S → S ≤ H →
      num_to_skip N H S c ≤ max 0 (N - H) ∧ num_to_skip N H S c ≤ c ∧
        c < num_to_skip N H S c + H) ∧
    (H < N → H ≤ c + S → num_to_skip N H S c = min (c + S - H) (N - H)) := by
  refine ⟨fun h1 h2 => ?_, fun h1 h2 => ?_⟩ <;>
    unfold num_to_skip <;> split_ifs <;> omega

/-- Witness for C1 at `N = 10`, `H = 4`, `S = 2`, `c = 7`. -/
theorem viewport_scroll_bounds_witness :
    num_to_skip 10 4 2 7 ≤ max 0 (10 - 4) ∧ num_to_skip 10 4 2 7 ≤ 7 ∧
      7 < num_to_skip 10 4 2 7 + 4 :=
  (viewport_scroll_bounds 10 4 2 7 (by decide) (by decide) (by decide)).1
    (by decide) (by decide)

/-- C1 counterexample: at `N = 2`, `H = 1`, `S = 0`, `c = 1` the code computes
offset `0`, so the claimed `off ≤ c < off + H` fails (`1 < 0 + 1` is false). -/
theorem viewport_scroll_claim_counterexample :
    ¬ (num_to_skip 2 1 0 1 ≤ max 0 (2 - 1) ∧ num_to_skip 2 1 0 1 ≤ 1 ∧
        1 < num_to_skip 2 1 0 1 + 1) := by decide

/-! ## C6: go_to_or_go_to_bottom with modifier 0 -/

/-- C6 (code evaluated at the failing input): on a non-empty list with modifier
`m = 0`, the `m - 1` inside `go_to_or_go_to_bottom` underflows — the model
returns `none` (a Rust panic under overflow checks; with wrapping arithmetic the
clamp lands on `n - 1`, the bottom) instead of the claimed clamped target `0`. -/
theorem go_to_or_bottom_underflow_at_zero :
    goToOrBottomAction (some 0) [nodeA] baseState = none := by decide

/-! ## C7: digit after verb -/

/-- C7: digesting a digit character with `force_verb = false` while the verb
buffer is non-empty returns an `Error` result and leaves both buffers empty. -/
theorem digit_after_verb_errors (r : InputReader) (c : Char)
    (hv : r.verb_key_sequence ≠ []) (hc : c.isDigit = true) :
    r.digest (KeyCode.Char c) false =
      (clearedInputReader,
        InputReaderDigestResult.DigestError
          "Can not have a verb modifier after an verb") := by
  cases hvk : r.verb_key_sequence with
  | nil => exact absurd hvk hv
  | cons a as => simp [InputReader.digest, hc, hvk]

/-- Witness for C7: buffers `("1", ["g"])`, key `'5'`. -/
theorem digit_after_verb_errors_witness :
    ((["g"] : List String) ≠ [] ∧ ('5' : Char).isDigit = true) ∧
      InputReader.digest
          { modifier_key_sequence := "1", verb_key_sequence := ["g"] }
          (KeyCode.Char '5') false =
        (clearedInputReader,
          InputReaderDigestResult.DigestError
            "Can not have a verb modifier after an verb") :=
  ⟨⟨by decide, by decide⟩,
    digit_after_verb_errors
      { modifier_key_sequence := "1", verb_key_sequence := ["g"] } '5'
      (by decide) (by decide)⟩

/-! ## C8: cursor operations on an empty list -/

/-- C8 (amended): on an empty entry list every cursor operation skips the index
arithmetic and overwrites the persisted selection with `none`; the state is
unchanged exactly when the selection was already `none`.  (The original "state
unchanged" claim fails for a stale selection; see the counterexample.) -/
theorem cursor_ops_empty_list (m : Option Nat) (s : AppState) :
    downAction m [] s =
      some ({ s with selected_file := none }, ActionResult.Valid) ∧
    upAction m [] s =
      some ({ s with selected_file := none }, ActionResult.Valid) ∧
    goToTopAction m [] s =
      some ({ s with selected_file := none }, ActionResult.Valid) ∧
    goToOrBottomAction m [] s =
      some ({ s with selected_file := none }, ActionResult.Valid) ∧
    (s.selected_file = none → ({ s with selected_file := none } : AppState) = s) := by
  refine ⟨?_, ?_, ?_, ?_, fun h => ?_⟩
  · simp [downAction, AppState.set_file_cursor_highlight_index]
  · simp [upAction, AppState.set_file_cursor_highlight_index]
  · simp [goToTopAction, AppState.set_file_cursor_highlight_index]
  · cases m <;> simp [goToOrBottomAction, AppState.set_file_cursor_highlight_index]
  · rw [← h]

/-- Witness for C8 on a state whose selection is already `none`. -/
theorem cursor_ops_empty_list_witness :
    baseState.selected_file = none ∧
      ({ baseState with selected_file := none } : AppState) = baseState :=
  ⟨rfl, (cursor_ops_empty_list none baseState).2.2.2.2 rfl⟩

/-- C8 counterexample: with a stale selection and an empty list, `down` is not a
no-op — it resets the persisted selected-file identity to `none`. -/
theorem cursor_op_empty_list_not_noop :
    ({ baseState with selected_file := some nodeA } : AppState).selected_file =
        some nodeA ∧
      (downAction none [] { baseState with selected_file := some nodeA }).map
          (fun p => p.1.selected_file) =
        some none := by decide

/-! ## C10: the up action never underflows -/

/-- C10: for any non-empty entry list, any current state and any modifier, the
`up` transform's subtrahend `m % n` never exceeds `n + i`, and the action
succeeds with a valid index `j < n` (the result of `rem_euclid`). -/
theorem up_no_underflow (m : Option Nat) (items : List FileTreeNode)
    (s : AppState) (hne : items ≠ []) :
    (m.getD 1 % items.length ≤
        items.length + (get_file_cursor_index s.selected_file items).getD 0) ∧
      ∃ j, j < items.length ∧
        upAction m items s =
          some ({ s with selected_file := items.get? j }, ActionResult.Valid) := by
  have hn : 0 < items.length := List.length_pos.mpr hne
  have hmod : m.getD 1 % items.length < items.length := Nat.mod_lt _ hn
  have hle : m.getD 1 % items.length ≤
      items.length + (get_file_cursor_index s.selected_file items).getD 0 := by
    omega
  refine ⟨hle, ⟨(items.length +
      (get_file_cursor_index s.selected_file items).getD 0 -
        m.getD 1 % items.length) % items.length, Nat.mod_lt _ hn, ?_⟩⟩
  have hne0 : items.length ≠ 0 := by omega
  simp [upAction, AppState.set_file_cursor_highlight_index, hne0, usizeSub, hle]

/-- Witness for C10 with a singleton list and modifier 3. -/
theorem up_no_underflow_witness :
    ([nodeA] : List FileTreeNode) ≠ [] ∧
      (some 3 : Option Nat).getD 1 % [nodeA].length ≤
        [nodeA].length +
          (get_file_cursor_index baseState.selected_file [nodeA]).getD 0 :=
  ⟨by decide, (up_no_underflow (some 3) [nodeA] baseState (by decide)).1⟩

/-! ## C2: down then up round trip -/

/-- `position` finds the `i`-th element of a path-nodup list at index `i`. -/
theorem position_self (l : List FileTreeNode) (i : Nat) (hi : i < l.length)
    (hnd : (l.map FileTreeNode.path).Nodup) :
    position (fun el => (l.get ⟨i, hi⟩).path == el.path) l = some i := by
  induction l generalizing i with
  | nil => simp at hi
  | cons x xs ih =>
    have hx : x.path ∉ xs.map FileTreeNode.path :=
      (List.nodup_cons.mp (by simpa using hnd)).1
    have hnd' : (xs.map FileTreeNode.path).Nodup :=
      (List.nodup_cons.mp (by simpa using hnd)).2
    cases i with
    | zero => simp [position]
    | succ j =>
      have hj : j < xs.length := by simpa using hi
      have hget : (x :: xs).get ⟨j + 1, hi⟩ = xs.get ⟨j, hj⟩ := rfl
      have hne : ((xs.get ⟨j, hj⟩).path == x.path) = false := by
        refine beq_eq_false_iff_ne.mpr fun h => hx ?_
        exact h ▸ List.mem_map_of_mem _ (xs.get_mem j hj)
      rw [hget]
      simp only [position, hne, Bool.false_eq_true, if_false, ih j hj hnd']
      rfl

/-- The effective cursor index of the entry persisted from index `i`. -/
theorem get_file_cursor_index_at (items : List FileTreeNode) (i : Nat)
    (hi : i < items.length) (hnd : (items.map FileTreeNode.path).Nodup) :
    get_file_cursor_index (items.get? i) items = some i := by
  rw [List.get?_eq_get hi]
  simpa [get_file_cursor_index] using position_self items i hi hnd

/-- The index arithmetic of `up` after `down`: `(n + (i + k) % n - k % n) % n = i`. -/
theorem up_down_index (n i k : Nat) (hn : 0 < n) (hi : i < n) :
    (n + (i + k) % n - k % n) % n = i := by
  have hs : k % n < n := Nat.mod_lt _ hn
  have h1 : (i + k) % n = (i + k % n) % n := by
    rw [Nat.add_mod, Nat.mod_eq_of_lt hi]
  rcases Nat.lt_or_ge (i + k % n) n with hlt | hge
  · rw [h1, Nat.mod_eq_of_lt hlt]
    have h2 : n + (i + k % n) - k % n = n + i := by omega
    rw [h2, Nat.add_mod_left, Nat.mod_eq_of_lt hi]
  · have h3 : (i + k % n) % n = i + k % n - n := by
      rw [Nat.mod_eq_sub_mod hge, Nat.mod_eq_of_lt (by omega)]
    rw [h1, h3]
    have h4 : n + (i + k % n - n) - k % n = i := by omega
    rw [h4, Nat.mod_eq_of_lt hi]

/-- C2: on a non-empty, path-distinct entry list, `down k` followed by `up k`
(for any `k ∈ [1, N]`) returns the session to its original state — in
particular the cursor returns to index `i`. -/
theorem down_up_round_trip (items : List FileTreeNode) (s : AppState) (i k : Nat)
    (hnd : (items.map FileTreeNode.path).Nodup) (hi : i < items.length)
    (hk1 : 1 ≤ k) (hkn : k ≤ items.length)
    (hsel : s.selected_file = items.get? i) :
    (downAction (some k) items s).bind (fun p => upAction (some k) items p.1) =
      some (s, ActionResult.Valid) := by
  have hn : 0 < items.length := Nat.lt_of_le_of_lt (Nat.zero_le i) hi
  have hne0 : items.length ≠ 0 := by omega
  have hidx : get_file_cursor_index s.selected_file items = some i := by
    rw [hsel]; exact get_file_cursor_index_at items i hi hnd
  have hstep1 : downAction (some k) items s = some ({ s with selected_file := items.get? ((i + k) % items.length) }, ActionResult.Valid) := by
    simp [downAction, AppState.set_file_cursor_highlight_index, hne0, hidx]
  have hj : (i + k) % items.length < items.length := Nat.mod_lt _ hn
  have hidx2 : get_file_cursor_index (items.get? ((i + k) % items.length)) items =
      some ((i + k) % items.length) := get_file_cursor_index_at items _ hj hnd
  have hsub : k % items.length ≤ items.length + (i + k) % items.length :=
    le_trans (le_of_lt (Nat.mod_lt _ hn)) (Nat.le_add_right _ _)
  have hidx2A : get_file_cursor_index (items[(i + k) % items.length]?) items =
      some ((i + k) % items.length) := by simpa using hidx2
  have hstep2 : upAction (some k) items { s with selected_file := items.get? ((i + k) % items.length) } = some ({ s with selected_file := items.get? ((items.length + (i + k) % items.length - k % items.length) % items.length) }, ActionResult.Valid) := by
    simp [upAction, AppState.set_file_cursor_highlight_index, hne0, hidx2A,
      usizeSub, hsub]
  rw [hstep1]
  rw [Option.some_bind]
  rw [hstep2, up_down_index items.length i k hn hi, ← hsel]

/-- Witness for C2: three distinct entries, `i = 1`, `k = 2`. -/
theorem down_up_round_trip_witness :
    (([nodeD, nodeA, nodeB].map FileTreeNode.path).Nodup ∧ 1 < 3 ∧
        1 ≤ 2 ∧ 2 ≤ 3) ∧
      (downAction (some 2) [nodeD, nodeA, nodeB]
          { baseState with selected_file := [nodeD, nodeA, nodeB].get? 1 }).bind
          (fun p => upAction (some 2) [nodeD, nodeA, nodeB] p.1) =
        some ({ baseState with selected_file := [nodeD, nodeA, nodeB].get? 1 },
          ActionResult.Valid) :=
  ⟨⟨by decide, by decide, by decide, by decide⟩,
    down_up_round_trip [nodeD, nodeA, nodeB]
      { baseState with selected_file := [nodeD, nodeA, nodeB].get? 1 } 1 2
      (by decide) (by decide) (by decide) (by decide) rfl⟩

/-- Every string starts with the empty sequence. -/
theorem starts_with_empty (K : String) : starts_with K "" = true := by
  have h : ("" : String).data = [] := by decide
  simp [starts_with, h, List.isPrefixOf]

/-- A table with a hit for some key has a key starting with the empty sequence. -/
theorem any_starts_with_empty_of_lookup {l : List (String × String)} {a b : String}
    (h : l.lookup a = some b) : (l.any fun kv => starts_with kv.1 "") = true := by
  cases l with
  | nil => simp [List.lookup] at h
  | cons x xs => simp [List.any_cons, starts_with_empty]

/-- `inputs` on a successful digest that resolves to an action returning `Valid`:
the action's state with the input buffers cleared, reporting the dispatched name. -/
theorem inputs_dispatch_valid (nB gB tB : List (String × String)) (k : KeyCode)
    (items : List FileTreeNode) (s : AppState) (r' : InputReader)
    (a : String) (f : ActionFn) (s' : AppState)
    (hq : s.mode ≠ Mode.SimpleMode SimpleMode.Quitting)
    (hdg : s.input_reader.digest k s.mode.is_text_mode =
      (r', InputReaderDigestResult.DigestSuccessful))
    (hres : resolve_action s.mode.get_action_map (modeTable nB tB s.mode) gB r' =
      some (a, f))
    (hact : f (parse_usize r'.modifier_key_sequence) items
        { s with
          error_popup := none
          error_message_line := none
          input_reader := r' } = some (s', ActionResult.Valid)) :
    inputs nB gB tB k items s =
      some ({ s' with input_reader := clearedInputReader }, some a) := by
  simp [inputs, hdg, hres, hact, hq]

/-- `inputs` on a successful digest with no resolution but a viable continuation:
buffers are retained (only popups/status cleared), nothing dispatched. -/
theorem inputs_retain (nB gB tB : List (String × String)) (k : KeyCode)
    (items : List FileTreeNode) (s : AppState) (r' : InputReader)
    (hq : s.mode ≠ Mode.SimpleMode SimpleMode.Quitting)
    (hdg : s.input_reader.digest k s.mode.is_text_mode =
      (r', InputReaderDigestResult.DigestSuccessful))
    (hres : resolve_action s.mode.get_action_map (modeTable nB tB s.mode) gB r' =
      none)
    (hchk : r'.check_incomplete_commands r'.get_human_friendly_verb_key_sequence
      [modeTable nB tB s.mode, gB] = true) :
    inputs nB gB tB k items s =
      some ({ s with
        error_popup := none
        error_message_line := none
        input_reader := r' }, none) := by
  simp [inputs, hdg, hres, hchk, hq]

/-- `inputs` on a dead-end sequence in a non-text mode: an unrecognized-sequence
status message, buffers cleared, nothing dispatched. -/
theorem inputs_dead_end_error (nB gB tB : List (String × String)) (k : KeyCode)
    (items : List FileTreeNode) (s : AppState) (r' : InputReader)
    (hq : s.mode ≠ Mode.SimpleMode SimpleMode.Quitting)
    (hdg : s.input_reader.digest k s.mode.is_text_mode =
      (r', InputReaderDigestResult.DigestSuccessful))
    (hres : resolve_action s.mode.get_action_map (modeTable nB tB s.mode) gB r' =
      none)
    (hchk : r'.check_incomplete_commands r'.get_human_friendly_verb_key_sequence
      [modeTable nB tB s.mode, gB] = false)
    (htext : s.mode.is_text_mode = false) :
    inputs nB gB tB k items s =
      some ({ s with
        error_popup := none
        error_message_line := some ("Could not recognise that sequence: " ++
          r'.get_human_friendly_verb_key_sequence)
        input_reader := clearedInputReader }, none) := by
  rw [htext] at hdg
  simp [inputs, hdg, hres, hchk, hq, htext]

/-- `inputs` on a dead-end sequence in a text mode: the verb tokens are flushed
into the entered text, buffers cleared, nothing dispatched. -/
theorem inputs_dead_end_text (nB gB tB : List (String × String)) (k : KeyCode)
    (items : List FileTreeNode) (s : AppState) (r' : InputReader)
    (hq : s.mode ≠ Mode.SimpleMode SimpleMode.Quitting)
    (hdg : s.input_reader.digest k s.mode.is_text_mode =
      (r', InputReaderDigestResult.DigestSuccessful))
    (hres : resolve_action s.mode.get_action_map (modeTable nB tB s.mode) gB r' =
      none)
    (hchk : r'.check_incomplete_commands r'.get_human_friendly_verb_key_sequence
      [modeTable nB tB s.mode, gB] = false)
    (htext : s.mode.is_text_mode = true) :
    inputs nB gB tB k items s =
      some ({ s with
        error_popup := none
        error_message_line := none
        entered_text := s.entered_text ++ String.join r'.verb_key_sequence
        input_reader := clearedInputReader }, none) := by
  rw [htext] at hdg
  simp [inputs, hdg, hres, hchk, hq, htext,
    AppState.copy_input_manager_verbs_to_entered_text]

/-- C3: from Normal mode with empty buffers (with `j` bound to `down`, and the
empty sequence unbound), digesting `1`, then `2`, then `j` dispatches no
action on the two digit keys and exactly one action (`down`) on `j`, moving the
cursor from index `i` to `(i + 12) % N`. -/
theorem digits_then_bound_verb (nB gB tB : List (String × String))
    (items : List FileTreeNode) (s : AppState) (i : Nat)
    (hmode : s.mode = Mode.SimpleMode SimpleMode.Normal)
    (hreader : s.input_reader = clearedInputReader)
    (hnd : (items.map FileTreeNode.path).Nodup)
    (hi : i < items.length)
    (hsel : s.selected_file = items.get? i)
    (hj : nB.lookup "j" = some "down")
    (h0m : nB.lookup "" = none)
    (h0g : gB.lookup "" = none) :
    ∃ s1 s2 s3 : AppState,
      inputs nB gB tB (KeyCode.Char '1') items s = some (s1, none) ∧
      inputs nB gB tB (KeyCode.Char '2') items s1 = some (s2, none) ∧
      inputs nB gB tB (KeyCode.Char 'j') items s2 = some (s3, some "down") ∧
      s3.selected_file = items.get? ((i + 12) % items.length) := by
  have hn : 0 < items.length := Nat.lt_of_le_of_lt (Nat.zero_le i) hi
  have hne0 : items.length ≠ 0 := by omega
  have hidxA : get_file_cursor_index items[i]? items = some i := by
    simpa using get_file_cursor_index_at items i hi hnd
  obtain ⟨mo, ir, ep, eml, sel, et, mf, mt⟩ := s
  have hmo : mo = Mode.SimpleMode SimpleMode.Normal := hmode
  have hir : ir = clearedInputReader := hreader
  have hse : sel = items.get? i := hsel
  subst hmo hir hse
  have hq1 : Mode.SimpleMode SimpleMode.Normal ≠ Mode.SimpleMode SimpleMode.Quitting := by
    decide
  have hdg1 : InputReader.digest clearedInputReader (KeyCode.Char '1') false =
      (⟨"1", []⟩, InputReaderDigestResult.DigestSuccessful) := by decide
  have hdg2 : InputReader.digest ⟨"1", []⟩ (KeyCode.Char '2') false =
      (⟨"12", []⟩, InputReaderDigestResult.DigestSuccessful) := by decide
  have hdg3 : InputReader.digest ⟨"12", []⟩ (KeyCode.Char 'j') false =
      (⟨"12", ["j"]⟩, InputReaderDigestResult.DigestSuccessful) := by decide
  have hp12 : parse_usize "12" = some 12 := by decide
  have hres1 : resolve_action findActionNormal nB gB ⟨"1", []⟩ = none := by
    simp [resolve_action, get_closure_by_key_bindings,
      InputReader.get_human_friendly_verb_key_sequence, h0m, h0g]
  have hres2 : resolve_action findActionNormal nB gB ⟨"12", []⟩ = none := by
    simp [resolve_action, get_closure_by_key_bindings,
      InputReader.get_human_friendly_verb_key_sequence, h0m, h0g]
  have hchkE : ∀ r : InputReader, r.check_incomplete_commands "" [nB, gB] = true := by
    intro r
    simp only [InputReader.check_incomplete_commands, List.any_cons, List.any_nil,
      Bool.or_eq_true]
    exact Or.inl (any_starts_with_empty_of_lookup hj)
  have hcan3 : InputReader.get_human_friendly_verb_key_sequence ⟨"12", ["j"]⟩ = "j" := by
    decide
  have hfa : findActionNormal "down" = some downAction := rfl
  have hres3 : resolve_action findActionNormal nB gB ⟨"12", ["j"]⟩ =
      some ("down", downAction) := by
    simp [resolve_action, get_closure_by_key_bindings, hcan3, hj, hfa]
  have hact3 : downAction (parse_usize "12") items
      (AppState.mk (Mode.SimpleMode SimpleMode.Normal) ⟨"12", ["j"]⟩ none none
        (items.get? i) et mf mt) =
      some (AppState.mk (Mode.SimpleMode SimpleMode.Normal) ⟨"12", ["j"]⟩ none none
        (items.get? ((i + 12) % items.length)) et mf mt, ActionResult.Valid) := by
    rw [hp12]
    simp [downAction, AppState.set_file_cursor_highlight_index, hne0, hidxA]
  refine ⟨AppState.mk (Mode.SimpleMode SimpleMode.Normal) ⟨"1", []⟩ none none
      (items.get? i) et mf mt,
    AppState.mk (Mode.SimpleMode SimpleMode.Normal) ⟨"12", []⟩ none none
      (items.get? i) et mf mt,
    AppState.mk (Mode.SimpleMode SimpleMode.Normal) clearedInputReader none none
      (items.get? ((i + 12) % items.length)) et mf mt, ?_, ?_, ?_, rfl⟩
  · exact inputs_retain nB gB tB (KeyCode.Char '1') items _ ⟨"1", []⟩
      hq1 hdg1 hres1 (hchkE _)
  · exact inputs_retain nB gB tB (KeyCode.Char '2') items _ ⟨"12", []⟩
      hq1 hdg2 hres2 (hchkE _)
  · exact inputs_dispatch_valid nB gB tB (KeyCode.Char 'j') items
      (AppState.mk (Mode.SimpleMode SimpleMode.Normal) ⟨"12", []⟩ none none
        (items.get? i) et mf mt)
      ⟨"12", ["j"]⟩ "down" downAction
      (AppState.mk (Mode.SimpleMode SimpleMode.Normal) ⟨"12", ["j"]⟩ none none
        (items.get? ((i + 12) % items.length)) et mf mt)
      hq1 hdg3 hres3 hact3

/-- A key absent from a table differs from every key of the table. -/
theorem lookup_none_ne_key {l : List (String × String)} {a : String}
    (h : l.lookup a = none) : ∀ kv ∈ l, kv.1 ≠ a := by
  induction l with
  | nil => intro kv hkv; simp at hkv
  | cons x xs ih =>
    intro kv hkv
    rcases List.mem_cons.mp hkv with rfl | hmem
    · intro hx
      rw [List.lookup_cons] at h
      simp [hx] at h
    · refine ih ?_ kv hmem
      rw [List.lookup_cons] at h
      rcases hax : (a == x.1) with _ | _
      · simpa [hax] using h
      · simp [hax] at h

/-- `check_incomplete_commands` succeeds exactly when some binding key of one of
the tables starts with the current sequence. -/
theorem check_incomplete_exists (r : InputReader) (cur : String)
    (m g : List (String × String)) :
    r.check_incomplete_commands cur [m, g] = true ↔
      ∃ K ∈ (m ++ g).map Prod.fst, starts_with K cur = true := by
  simp only [InputReader.check_incomplete_commands, List.any_cons, List.any_nil,
    Bool.or_eq_true, Bool.or_eq_false_iff, List.any_eq_true, List.mem_map,
    List.mem_append]
  constructor
  · rintro (⟨kv, hkv, hsw⟩ | ⟨kv, hkv, hsw⟩ | h)
    · exact ⟨kv.1, ⟨kv, Or.inl hkv, rfl⟩, hsw⟩
    · exact ⟨kv.1, ⟨kv, Or.inr hkv, rfl⟩, hsw⟩
    · simp at h
  · rintro ⟨K, ⟨kv, hkv | hkv, rfl⟩, hsw⟩
    · exact Or.inl ⟨kv, hkv, hsw⟩
    · exact Or.inr (Or.inl ⟨kv, hkv, hsw⟩)

/-- C4: after a digest whose canonical key matches no binding exactly (in the
active-mode or global table): if the key is a strict prefix of some binding, the
buffers are retained and no error is issued; otherwise, in text modes the verb
tokens are flushed into the pending text, in other modes an unrecognized-sequence
message is emitted, and in either case the buffers are cleared. -/
theorem prefix_retains_dead_end_clears (nB gB tB : List (String × String))
    (k : KeyCode) (items : List FileTreeNode) (s : AppState) (r' : InputReader)
    (cur : String)
    (hq : s.mode ≠ Mode.SimpleMode SimpleMode.Quitting)
    (hdg : s.input_reader.digest k s.mode.is_text_mode =
      (r', InputReaderDigestResult.DigestSuccessful))
    (hcur : r'.get_human_friendly_verb_key_sequence = cur)
    (hm : (modeTable nB tB s.mode).lookup cur = none)
    (hg : gB.lookup cur = none) :
    ((∃ K ∈ (modeTable nB tB s.mode ++ gB).map Prod.fst,
        cur ≠ K ∧ starts_with K cur = true) →
      inputs nB gB tB k items s =
        some ({ s with
          error_popup := none
          error_message_line := none
          input_reader := r' }, none)) ∧
    (¬ (∃ K ∈ (modeTable nB tB s.mode ++ gB).map Prod.fst,
        cur ≠ K ∧ starts_with K cur = true) →
      (s.mode.is_text_mode = true →
        inputs nB gB tB k items s =
          some ({ s with
            error_popup := none
            error_message_line := none
            entered_text := s.entered_text ++ String.join r'.verb_key_sequence
            input_reader := clearedInputReader }, none)) ∧
      (s.mode.is_text_mode = false →
        inputs nB gB tB k items s =
          some ({ s with
            error_popup := none
            error_message_line :=
              some ("Could not recognise that sequence: " ++ cur)
            input_reader := clearedInputReader }, none))) := by
  have hres : resolve_action s.mode.get_action_map (modeTable nB tB s.mode) gB r' =
      none := by
    simp [resolve_action, get_closure_by_key_bindings, hcur, hm, hg]
  have hne : ∀ K ∈ (modeTable nB tB s.mode ++ gB).map Prod.fst, K ≠ cur := by
    intro K hK
    rcases List.mem_map.mp hK with ⟨kv, hkv, rfl⟩
    rcases List.mem_append.mp hkv with hmem | hmem
    · exact lookup_none_ne_key hm kv hmem
    · exact lookup_none_ne_key hg kv hmem
  have hiff : r'.check_incomplete_commands cur [modeTable nB tB s.mode, gB] = true ↔
      (∃ K ∈ (modeTable nB tB s.mode ++ gB).map Prod.fst,
        cur ≠ K ∧ starts_with K cur = true) := by
    rw [check_incomplete_exists]
    constructor
    · rintro ⟨K, hK, hsw⟩
      exact ⟨K, hK, (hne K hK).symm, hsw⟩
    · rintro ⟨K, hK, _, hsw⟩
      exact ⟨K, hK, hsw⟩
  constructor
  · intro hex
    have hchk : r'.check_incomplete_commands
        r'.get_human_friendly_verb_key_sequence
        [modeTable nB tB s.mode, gB] = true := by
      rw [hcur]; exact hiff.mpr hex
    exact inputs_retain nB gB tB k items s r' hq hdg hres hchk
  · intro hnex
    have hchk : r'.check_incomplete_commands
        r'.get_human_friendly_verb_key_sequence
        [modeTable nB tB s.mode, gB] = false := by
      rw [hcur]
      exact Bool.eq_false_iff.mpr fun h => hnex (hiff.mp h)
    constructor
    · intro ht
      exact inputs_dead_end_text nB gB tB k items s r' hq hdg hres hchk ht
    · intro hf
      have := inputs_dead_end_error nB gB tB k items s r' hq hdg hres hchk hf
      rw [hcur] at this
      exact this

/-- A resolved closure comes from the mode table with a mode action, or from the
global table with a global action. -/
theorem resolve_action_cases {acts : String → Option ActionFn}
    {mB gB : List (String × String)} {r : InputReader} {a : String} {f : ActionFn}
    (h : resolve_action acts mB gB r = some (a, f)) :
    (mB.lookup r.get_human_friendly_verb_key_sequence = some a ∧ acts a = some f) ∨
      (gB.lookup r.get_human_friendly_verb_key_sequence = some a ∧
        findActionGlobal a = some f) := by
  unfold resolve_action get_closure_by_key_bindings Option.orElse at h
  split at h
  · rename_i v heq
    injection h with hv
    subst hv
    split at heq
    · rename_i name heq2
      rcases hfm : acts name with _ | f2
      · rw [hfm] at heq; simp at heq
      · rw [hfm] at heq
        simp at heq
        obtain ⟨rfl, rfl⟩ := heq
        exact Or.inl ⟨heq2, hfm⟩
    · simp at heq
  · simp only [] at h
    split at h
    · rename_i name heq2
      rcases hfg : findActionGlobal name with _ | f2
      · rw [hfg] at h; simp at h
      · rw [hfg] at h
        simp at h
        obtain ⟨rfl, rfl⟩ := h
        exact Or.inr ⟨heq2, hfg⟩
    · simp at h

/-- C9 (amended): every action entering a `TextInput`/`Overlay` mode
(`search_mode`, `run_command_mode`, `rename`, `delete_instantly`, `create_file`,
`create_directory`), when dispatched from Normal mode with a file selected,
leaves a state in the new (text-accepting) mode with the entered-text buffer
reset and the input digester buffers cleared.  (The original claim also said the
mark set is reset; it is not — see the counterexample.) -/
theorem mode_entry_resets (nB gB tB : List (String × String)) (k : KeyCode)
    (items : List FileTreeNode) (s : AppState) (r' : InputReader) (a : String)
    (f : ActionFn) (sf : FileTreeNode)
    (hmode : s.mode = Mode.SimpleMode SimpleMode.Normal)
    (hdg : s.input_reader.digest k false =
      (r', InputReaderDigestResult.DigestSuccessful))
    (hres : resolve_action findActionNormal nB gB r' = some (a, f))
    (ha : a = "search_mode" ∨ a = "run_command_mode" ∨ a = "rename" ∨
      a = "delete_instantly" ∨ a = "create_file" ∨ a = "create_directory")
    (hsel : s.selected_file = some sf) :
    ∃ s' : AppState, inputs nB gB tB k items s = some (s', some a) ∧
      s'.entered_text = "" ∧ s'.input_reader = clearedInputReader ∧
      s'.mode.is_text_mode = true := by
  obtain ⟨mo, ir, ep, eml, sel, et, mf, mt⟩ := s
  have hmo : mo = Mode.SimpleMode SimpleMode.Normal := hmode
  have hse : sel = some sf := hsel
  subst hmo hse
  have hq1 : Mode.SimpleMode SimpleMode.Normal ≠ Mode.SimpleMode SimpleMode.Quitting := by
    decide
  have hcases := resolve_action_cases hres
  rcases ha with rfl | rfl | rfl | rfl | rfl | rfl
  · rcases hcases with ⟨-, hfa⟩ | ⟨-, hfa⟩
    · rw [show findActionNormal "search_mode" = none from rfl] at hfa
      simp at hfa
    · rw [show findActionGlobal "search_mode" = some searchModeAction from rfl] at hfa
      injection hfa with hf
      subst hf
      exact ⟨AppState.mk (Mode.TextInputMode TextInput.Search) clearedInputReader
          none none (some sf) "" mf mt,
        inputs_dispatch_valid nB gB tB k items _ r' "search_mode" searchModeAction
          (AppState.mk (Mode.TextInputMode TextInput.Search) r' none none
            (some sf) "" mf mt) hq1 hdg hres rfl, rfl, rfl, rfl⟩
  · rcases hcases with ⟨-, hfa⟩ | ⟨-, hfa⟩
    · rw [show findActionNormal "run_command_mode" = none from rfl] at hfa
      simp at hfa
    · rw [show findActionGlobal "run_command_mode" = some runCommandModeAction from rfl] at hfa
      injection hfa with hf
      subst hf
      exact ⟨AppState.mk (Mode.TextInputMode TextInput.RunCommand) clearedInputReader
          none none (some sf) "" mf mt,
        inputs_dispatch_valid nB gB tB k items _ r' "run_command_mode"
          runCommandModeAction
          (AppState.mk (Mode.TextInputMode TextInput.RunCommand) r' none none
            (some sf) "" mf mt) hq1 hdg hres rfl, rfl, rfl, rfl⟩
  · rcases hcases with ⟨-, hfa⟩ | ⟨-, hfa⟩
    · rw [show findActionNormal "rename" = some renameAction from rfl] at hfa
      injection hfa with hf
      subst hf
      exact ⟨AppState.mk (Mode.OverlayMode SimpleMode.Normal (OverlayMode.Rename sf))
          clearedInputReader none none (some sf) "" mf mt,
        inputs_dispatch_valid nB gB tB k items _ r' "rename" renameAction
          (AppState.mk (Mode.OverlayMode SimpleMode.Normal (OverlayMode.Rename sf))
            r' none none (some sf) "" mf mt) hq1 hdg hres rfl, rfl, rfl, rfl⟩
    · rw [show findActionGlobal "rename" = none from rfl] at hfa
      simp at hfa
  · rcases hcases with ⟨-, hfa⟩ | ⟨-, hfa⟩
    · rw [show findActionNormal "delete_instantly" = some deleteInstantlyAction from rfl] at hfa
      injection hfa with hf
      subst hf
      exact ⟨AppState.mk (Mode.OverlayMode SimpleMode.Normal
            (OverlayMode.DeleteInstantlyConfirm sf))
          clearedInputReader none none (some sf) "" mf mt,
        inputs_dispatch_valid nB gB tB k items _ r' "delete_instantly"
          deleteInstantlyAction
          (AppState.mk (Mode.OverlayMode SimpleMode.Normal
              (OverlayMode.DeleteInstantlyConfirm sf))
            r' none none (some sf) "" mf mt) hq1 hdg hres rfl, rfl, rfl, rfl⟩
    · rw [show findActionGlobal "delete_instantly" = none from rfl] at hfa
      simp at hfa
  · rcases hcases with ⟨-, hfa⟩ | ⟨-, hfa⟩
    · rw [show findActionNormal "create_file" = some createFileAction from rfl] at hfa
      injection hfa with hf
      subst hf
      exact ⟨AppState.mk (Mode.OverlayMode SimpleMode.Normal OverlayMode.CreateFile)
          clearedInputReader none none (some sf) "" mf mt,
        inputs_dispatch_valid nB gB tB k items _ r' "create_file" createFileAction
          (AppState.mk (Mode.OverlayMode SimpleMode.Normal OverlayMode.CreateFile)
            r' none none (some sf) "" mf mt) hq1 hdg hres rfl, rfl, rfl, rfl⟩
    · rw [show findActionGlobal "create_file" = none from rfl] at hfa
      simp at hfa
  · rcases hcases with ⟨-, hfa⟩ | ⟨-, hfa⟩
    · rw [show findActionNormal "create_directory" = some createDirectoryAction from rfl] at hfa
      injection hfa with hf
      subst hf
      exact ⟨AppState.mk (Mode.OverlayMode SimpleMode.Normal OverlayMode.CreateDirectory)
          clearedInputReader none none (some sf) "" mf mt,
        inputs_dispatch_valid nB gB tB k items _ r' "create_directory"
          createDirectoryAction
          (AppState.mk (Mode.OverlayMode SimpleMode.Normal OverlayMode.CreateDirectory)
            r' none none (some sf) "" mf mt) hq1 hdg hres rfl, rfl, rfl, rfl⟩
    · rw [show findActionGlobal "create_directory" = none from rfl] at hfa
      simp at hfa

/-- `rust_cmp x y` is `Less` or `Equal` exactly when `x ≤ y`. -/
theorem rust_cmp_isLE_iff {α : Type} [LinearOrder α] (x y : α) :
    (rust_cmp x y).isLE = true ↔ x ≤ y := by
  unfold rust_cmp
  rcases lt_trichotomy x y with h | h | h
  · rw [if_pos h]
    simp [Ordering.isLE, le_of_lt h]
  · rw [if_neg (by simp [h]), if_pos h]
    simp [Ordering.isLE, le_of_eq h]
  · rw [if_neg (by exact not_lt_of_gt h),
      if_neg (by intro he; rw [he] at h; exact lt_irrefl y h)]
    simp [Ordering.isLE, not_le.mpr h]

/-- The default ordering: directories strictly before files, ties by path. -/
theorem dir_path_le_iff (a b : FileTreeNode) :
    dir_path_le a b = true ↔
      ((a.is_dir = true ∧ b.is_dir = false) ∨
        (a.is_dir = b.is_dir ∧ a.path ≤ b.path)) := by
  unfold dir_path_le cmp_by_dir_and_path
  cases ha : a.is_dir <;> cases hb : b.is_dir
  · rw [show ((false : Bool) != false) = false from rfl,
      if_neg (by simp), rust_cmp_isLE_iff]
    simp
  · rw [show ((false : Bool) != true) = true from rfl, if_pos rfl,
      if_neg (by simp)]
    simp [Ordering.isLE]
  · rw [show ((true : Bool) != false) = true from rfl, if_pos rfl,
      if_pos rfl]
    simp [Ordering.isLE]
  · rw [show ((true : Bool) != true) = false from rfl,
      if_neg (by simp), rust_cmp_isLE_iff]
    simp

/-- The default ordering is transitive. -/
theorem dir_path_le_trans : ∀ a b c : FileTreeNode, dir_path_le a b = true →
    dir_path_le b c = true → dir_path_le a c = true := by
  intro a b c hab hbc
  rw [dir_path_le_iff] at hab hbc ⊢
  rcases hab with ⟨ha, hb⟩ | ⟨hab, hpab⟩ <;>
    rcases hbc with ⟨hb2, hc⟩ | ⟨hbc, hpbc⟩
  · exact absurd hb2 (by simp [hb])
  · exact Or.inl ⟨ha, hbc ▸ hb⟩
  · exact Or.inl ⟨hab.trans hb2, hc⟩
  · exact Or.inr ⟨hab.trans hbc, le_trans hpab hpbc⟩

/-- The default ordering is total. -/
theorem dir_path_le_total : ∀ a b : FileTreeNode,
    (dir_path_le a b || dir_path_le b a) = true := by
  intro a b
  rw [Bool.or_eq_true, dir_path_le_iff, dir_path_le_iff]
  rcases le_total a.path b.path with h | h <;>
    cases ha : a.is_dir <;> cases hb : b.is_dir <;> simp [ha, hb, h]

/-- The search ordering: strictly higher score first, ties by default order. -/
theorem search_le_iff (p q : Int × FileTreeNode) :
    search_le p q = true ↔
      (q.1 < p.1 ∨ (p.1 = q.1 ∧ dir_path_le p.2 q.2 = true)) := by
  unfold search_le search_cmp
  by_cases h : p.1 = q.1
  · rw [if_neg (by simp [h])]
    simp only [h, lt_self_iff_false, false_or, true_and]
    exact Iff.rfl
  · rw [if_pos h,
      show (rust_cmp q.1 p.1).isLE = true ↔ q.1 ≤ p.1 from rust_cmp_isLE_iff q.1 p.1]
    simp only [h, false_and, or_false]
    omega

/-- The search ordering is transitive. -/
theorem search_le_trans : ∀ x y z : Int × FileTreeNode, search_le x y = true →
    search_le y z = true → search_le x z = true := by
  intro x y z hxy hyz
  rw [search_le_iff] at hxy hyz ⊢
  rcases hxy with h1 | ⟨e1, d1⟩ <;> rcases hyz with h2 | ⟨e2, d2⟩
  · exact Or.inl (lt_trans h2 h1)
  · exact Or.inl (e2 ▸ h1)
  · exact Or.inl (by rw [e1]; exact h2)
  · exact Or.inr ⟨e1.trans e2, dir_path_le_trans _ _ _ d1 d2⟩

/-- The search ordering is total. -/
theorem search_le_total : ∀ x y : Int × FileTreeNode,
    (search_le x y || search_le y x) = true := by
  intro x y
  rw [Bool.or_eq_true, search_le_iff, search_le_iff]
  rcases lt_trichotomy x.1 y.1 with h | h | h
  · exact Or.inr (Or.inl h)
  · have hdt := dir_path_le_total x.2 y.2
    rw [Bool.or_eq_true] at hdt
    rcases hdt with d | d
    · exact Or.inl (Or.inr ⟨h, d⟩)
    · exact Or.inr (Or.inr ⟨h.symm, d⟩)
  · exact Or.inl (Or.inl h)

/-- C5: in Search mode with a non-empty query, the result is exactly the
positively-scored entries (a permutation of that filter), sorted by descending
score with ties broken by the default ordering; with an empty query, scoring is
bypassed and the full entry set appears in the default ordering (a permutation of
the input, default-sorted); and the default ordering puts directories before
files. -/
theorem search_filter_sort (score : String → String → Int) (q : String)
    (items : List FileTreeNode) :
    (q.data.isEmpty = true →
      (search_mode_dir_items score q items).Perm items ∧
      (search_mode_dir_items score q items).Pairwise
        (fun a b => dir_path_le a b = true)) ∧
    (q.data.isEmpty = false →
      (search_mode_dir_items score q items).Perm
        (items.filter fun el => 0 < score el.simple_name q) ∧
      (search_mode_dir_items score q items).Pairwise
        (fun a b => score b.simple_name q < score a.simple_name q ∨
          (score a.simple_name q = score b.simple_name q ∧
            dir_path_le a b = true))) ∧
    (∀ a b : FileTreeNode, a.is_dir = true → b.is_dir = false →
      cmp_by_dir_and_path a b = Ordering.lt) := by
  refine ⟨fun hq => ?_, fun hq => ?_, fun a b ha hb => ?_⟩
  · unfold search_mode_dir_items
    rw [if_pos hq]
    exact ⟨List.mergeSort_perm items dir_path_le,
      List.sorted_mergeSort dir_path_le_trans dir_path_le_total items⟩
  · unfold search_mode_dir_items
    rw [if_neg (by simp [hq])]
    set wrapped := (items.map fun el => (score el.simple_name q, el)).filter
      (fun el => 0 < el.1) with hw
    have hperm : (wrapped.mergeSort search_le).Perm wrapped :=
      List.mergeSort_perm wrapped search_le
    constructor
    · have h1 : ((wrapped.mergeSort search_le).map fun el => el.2).Perm
          (wrapped.map fun el => el.2) := hperm.map _
      have h2 : wrapped.map (fun el => el.2) =
          items.filter (fun el => 0 < score el.simple_name q) := by
        rw [hw, List.filter_map, List.map_map]
        rw [show ((fun el : Int × FileTreeNode => el.2) ∘
            fun el : FileTreeNode => (score el.simple_name q, el)) =
            fun el => el from rfl,
          show ((fun el : Int × FileTreeNode => decide (0 < el.1)) ∘
            fun el : FileTreeNode => (score el.simple_name q, el)) =
            fun el => decide (0 < score el.simple_name q) from rfl]
        simp
      exact h2 ▸ h1
    · have hsorted := List.sorted_mergeSort search_le_trans search_le_total wrapped
      have hmem : ∀ p ∈ wrapped.mergeSort search_le,
          p.1 = score p.2.simple_name q := by
        intro p hp
        have hp2 : p ∈ wrapped := hperm.mem_iff.mp hp
        rw [hw] at hp2
        have hp3 := List.mem_of_mem_filter hp2
        rcases List.mem_map.mp hp3 with ⟨el, _, rfl⟩
        rfl
      have hpw : (wrapped.mergeSort search_le).Pairwise
          (fun p r => score r.2.simple_name q < score p.2.simple_name q ∨
            (score p.2.simple_name q = score r.2.simple_name q ∧
              dir_path_le p.2 r.2 = true)) := by
        refine List.Pairwise.imp_of_mem ?_ hsorted
        intro p r hp hr hle
        have h1 := hmem p hp
        have h2 := hmem r hr
        rw [search_le_iff] at hle
        rw [h1, h2] at hle
        exact hle
      exact List.pairwise_map.mpr hpw
  · unfold cmp_by_dir_and_path
    rw [ha, hb, show ((true : Bool) != false) = true from rfl, if_pos rfl,
      if_pos rfl]

/-- Witness for C3: bindings `{"j" → down}`, two entries, cursor at index 0. -/
theorem digits_then_bound_verb_witness :
    (List.lookup "j" [("j", "down")] = some "down" ∧
      List.lookup "" [("j", "down")] = (none : Option String) ∧
      List.lookup "" ([] : List (String × String)) = (none : Option String) ∧
      0 < [nodeA, nodeB].length) ∧
    ∃ s1 s2 s3 : AppState,
      inputs [("j", "down")] [] [] (KeyCode.Char '1') [nodeA, nodeB]
          { baseState with selected_file := [nodeA, nodeB].get? 0 } =
        some (s1, none) ∧
      inputs [("j", "down")] [] [] (KeyCode.Char '2') [nodeA, nodeB] s1 =
        some (s2, none) ∧
      inputs [("j", "down")] [] [] (KeyCode.Char 'j') [nodeA, nodeB] s2 =
        some (s3, some "down") ∧
      s3.selected_file = [nodeA, nodeB].get? ((0 + 12) % [nodeA, nodeB].length) :=
  ⟨⟨by decide, by decide, by decide, by decide⟩,
    digits_then_bound_verb [("j", "down")] [] [] [nodeA, nodeB]
      { baseState with selected_file := [nodeA, nodeB].get? 0 } 0 rfl rfl
      (by decide) (by decide) rfl (by decide) (by decide) (by decide)⟩

/-- Witness for C4: with `"g g"` bound and `"g"` unbound, digesting a single
`'g'` retains the buffers and issues no error. -/
theorem prefix_retains_witness :
    (List.lookup "g" [("g g", "go_to_top")] = (none : Option String) ∧
      starts_with "g g" "g" = true) ∧
    inputs [("g g", "go_to_top")] [] [] (KeyCode.Char 'g') [] baseState =
      some ({ baseState with
        error_popup := none
        error_message_line := none
        input_reader := { modifier_key_sequence := "", verb_key_sequence := ["g"] } },
        none) :=
  ⟨⟨by decide, by decide⟩,
    (prefix_retains_dead_end_clears [("g g", "go_to_top")] [] [] (KeyCode.Char 'g')
      [] baseState ⟨"", ["g"]⟩ "g" (by decide) (by decide) (by decide) (by decide)
      (by decide)).1 ⟨"g g", by decide, by decide, by decide⟩⟩

/-- Witness for C9: `'/'` bound globally to `search_mode`, dispatched from
Normal mode. -/
theorem mode_entry_resets_witness :
    (({ baseState with selected_file := some nodeA } : AppState).mode =
        Mode.SimpleMode SimpleMode.Normal ∧
      resolve_action findActionNormal [] [("/", "search_mode")] ⟨"", ["/"]⟩ =
        some ("search_mode", searchModeAction)) ∧
    ∃ s' : AppState,
      inputs [] [("/", "search_mode")] [] (KeyCode.Char '/') []
          { baseState with selected_file := some nodeA } =
        some (s', some "search_mode") ∧
      s'.entered_text = "" ∧ s'.input_reader = clearedInputReader ∧
      s'.mode.is_text_mode = true :=
  ⟨⟨rfl, rfl⟩,
    mode_entry_resets [] [("/", "search_mode")] [] (KeyCode.Char '/') []
      { baseState with selected_file := some nodeA } ⟨"", ["/"]⟩ "search_mode"
      searchModeAction nodeA rfl (by decide) rfl (Or.inl rfl) rfl⟩

/-- C9 counterexample: `delete_instantly` enters the delete-confirm overlay but
does not reset the marked-files set (the mark set relevant to a delete). -/
theorem mode_entry_does_not_reset_marks :
    (deleteInstantlyAction none []
        { baseState with
          selected_file := some nodeA
          marked_files := [nodeA] }).map
        (fun p => (p.1.mode, p.1.marked_files)) =
      some (Mode.OverlayMode SimpleMode.Normal
          (OverlayMode.DeleteInstantlyConfirm nodeA), [nodeA]) := by decide

/-- A sample scorer for the C5 witness: an exact name match scores 2, anything
else 0 (excluded). -/
def sampleScore (name query : String) : Int :=
  if name = query then 2 else 0

/-- Witness for C5 at the non-empty query `"a"` over two file entries. -/
theorem search_filter_sort_witness :
    (("a" : String).data.isEmpty = false ∧ nodeD.is_dir = true ∧
      nodeA.is_dir = false) ∧
    ((search_mode_dir_items sampleScore "a" [nodeA, nodeB]).Perm
        ([nodeA, nodeB].filter fun el => 0 < sampleScore el.simple_name "a") ∧
      (search_mode_dir_items sampleScore "a" [nodeA, nodeB]).Pairwise
        (fun a b => sampleScore b.simple_name "a" < sampleScore a.simple_name "a" ∨
          (sampleScore a.simple_name "a" = sampleScore b.simple_name "a" ∧
            dir_path_le a b = true))) ∧
    cmp_by_dir_and_path nodeD nodeA = Ordering.lt :=
  ⟨⟨by decide, rfl, rfl⟩,
    (search_filter_sort sampleScore "a" [nodeA, nodeB]).2.1 (by decide),
    (search_filter_sort sampleScore "a" [nodeA, nodeB]).2.2 nodeD nodeA rfl rfl⟩
